import Mathlib

/-!
Verification of the CHAN-2024 Twitter sentiment-analysis repository.

This file shallowly embeds the category-classification cascade
(`TextPreprocessor.categorize_country` in `src/utils/text_preprocessing.py`),
the static configuration tables (`src/config.py`), the sentiment threshold
labeling (`CHAN2024SentimentAnalyzer.analyze_sentiment` in `src/main.py`)
and the tweet-insertion logic (`DatabaseManager.insert_tweet` in `src/db.py`,
against a relational-store model of the `tweets` table with its UNIQUE
`tweet_id` constraint and `ON CONFLICT DO NOTHING`).

Note on the source: `text_preprocessing.py` contains an accidentally pasted
README fragment in the middle of `categorize_country` (plain prose lines,
not statements); the embedding models the function's executable statements,
which are intact on both sides of the fragment.

Python specifics mirrored here:
  * `str.lower()` maps each character to lowercase (`lower`);
  * `needle in haystack` on strings is substring containment (`strIn`);
  * dicts preserve insertion order, so the score dicts are association lists
    built in iteration order (`scoreTable`, `upsertAdd`);
  * `max(d, key=d.get)` returns the first key attaining the maximal value
    in iteration order (`maxKeyByValue`).
-/

/-- Python `str.lower()` restricted to the char-wise mapping (ASCII-faithful). -/
def lower (s : String) : String := String.mk (s.data.map Char.toLower)

/-- Predicate `containsSub n h = true` iff `n` occurs as a contiguous sublist of `h`.
Mirrors Python's `n in h` on strings (over char lists). -/
def containsSub (needle : List Char) : List Char → Bool
  | [] => needle.isEmpty
  | c :: rest => needle.isPrefixOf (c :: rest) || containsSub needle rest

/-- Python `needle in haystack` for strings (substring containment). -/
def strIn (needle haystack : String) : Bool := containsSub needle.data haystack.data

/-- Python str.join with a single-space separator. -/
def joinSp : List String → String
  | [] => ""
  | [s] => s
  | s :: rest => s ++ " " ++ joinSp rest

/-- Table `Config.COUNTRY_HASHTAGS` (src/config.py lines 45-49), in declaration
order, as an insertion-ordered association list. -/
def COUNTRY_HASHTAGS : List (String × List String) :=
  [("Kenya", ["#chan2024", "#totalenergieschan2024", "#harambeestars"]),
   ("Uganda", ["#totalenergieschan2024", "#chan2024", "#ugandacranes"]),
   ("Tanzania", ["#chan2024", "#totalenergieschan2024", "#taifastars"])]

/-- List `Config.SHARED_HASHTAGS` (src/config.py line 52). -/
def SHARED_HASHTAGS : List String :=
  ["#pamoja", "#chan2024", "#totalenergieschan2024", "#eastafrica", "#eac"]

/-- Table `Config.COUNTRY_KEYWORDS` (src/config.py lines 54-58). -/
def COUNTRY_KEYWORDS : List (String × List String) :=
  [("Kenya", ["kenya", "harambee", "stars", "nairobi", "teamkenya", "ke", "harambeefc", "harambeestars"]),
   ("Uganda", ["uganda", "cranes", "kampala", "teamuganda", "ug", "thecranes", "ugandacranes"]),
   ("Tanzania", ["tanzania", "taifa", "stars", "dar", "teamtanzania", "tz", "taifastars", "simba"])]

/-- Table `Config.VENUE_KEYWORDS` (src/config.py lines 61-65). -/
def VENUE_KEYWORDS : List (String × List String) :=
  [("Kenya", ["nairobi", "kasarani", "nyayo", "moi"]),
   ("Uganda", ["kampala", "nakivubo", "mandela", "namboole"]),
   ("Tanzania", ["dar es salaam", "mkapa", "uhuru", "azam"])]

/-- The generic event indicators of line 126 of text_preprocessing.py. -/
def chan_indicators : List String :=
  ["chan", "african nations championship", "caf", "totalenergies"]

/-- The combined content, text_lower joined with the lowercased hashtags by
single spaces (text_preprocessing.py line 48). -/
def allContent (text : String) (hashtags : List String) : String :=
  lower text ++ " " ++ joinSp (hashtags.map lower)

/-- Number of terms of `terms` occurring as substrings of `content`:
`sum(1 for k in terms if k in content)`. -/
def hitCount (content : String) (terms : List String) : Nat :=
  (terms.filter (fun k => strIn k content)).length

/-- Build a score dict by iterating a config table in declaration order,
keeping only countries with nonzero score — the common shape of the three
`for country, ... in Config.X.items(): ... if score > 0: d[country] = score`
loops of `categorize_country`. Dicts preserve insertion order, hence an
association list. -/
def scoreTable (table : List (String × List String)) (score : List String → Nat) :
    List (String × Nat) :=
  table.filterMap (fun p => if score p.2 = 0 then none else some (p.1, score p.2))

/-- Lines 53-58: `country_hashtag_scores`, counting exact hashtag matches
(`hashtag in hashtags_lower` is list membership). -/
def countryHashtagScores (hashtags_lower : List String) : List (String × Nat) :=
  scoreTable COUNTRY_HASHTAGS
    (fun tags => (tags.filter (fun tag => hashtags_lower.contains tag)).length)

/-- Line 63: `shared_count = sum(1 for hashtag in hashtags_lower if hashtag in Config.SHARED_HASHTAGS)`. -/
def sharedCount (hashtags_lower : List String) : Nat :=
  (hashtags_lower.filter (fun tag => SHARED_HASHTAGS.contains tag)).length

/-- Lines 69-73: `country_keyword_scores` of the shared-hashtag tie-break
(weight 1 per keyword substring hit on `all_content`). -/
def countryKeywordScores (content : String) : List (String × Nat) :=
  scoreTable COUNTRY_KEYWORDS (hitCount content)

/-- Python `max(d.values())` for the nonempty score dicts used here
(all stored values are positive, so the 0 seed is inert). -/
def maxVal (l : List (String × Nat)) : Nat := l.foldl (fun m p => max m p.2) 0

/-- First key attaining the maximal value, in insertion order: Python's
`max(d, key=d.get)` (`max` keeps the current item unless a later one is
strictly greater). -/
def maxKeyAux (k : String) (v : Nat) : List (String × Nat) → String
  | [] => k
  | (k2, v2) :: rest => if v < v2 then maxKeyAux k2 v2 rest else maxKeyAux k v rest

/-- Python max with the dict-get key function on an insertion-ordered dict;
the empty string on the empty dict,
which every caller guards against (Python would raise there). -/
def maxKeyByValue : List (String × Nat) → String
  | [] => ""
  | (k, v) :: rest => maxKeyAux k v rest

/-- Dict update `d[country] = d.get(country, 0) + s` on an insertion-ordered dict:
updating an existing key keeps its position, a fresh key is appended. -/
def upsertAdd : List (String × Nat) → String → Nat → List (String × Nat)
  | [], c, s => [(c, s)]
  | (k, v) :: rest, c, s =>
    if k = c then (k, v + s) :: rest else (k, v) :: upsertAdd rest c s

/-- Lines 83-87 and 117-120: the combined keyword+venue score dict
`country_scores` — keyword scores (weight 1) first, then
`venue_score = sum(2 for venue in venues if venue in all_content)` added via
`country_scores[country] = country_scores.get(country, 0) + venue_score`
whenever `venue_score > 0`. -/
def countryScores (content : String) : List (String × Nat) :=
  VENUE_KEYWORDS.foldl
    (fun acc p =>
      let venue_score := 2 * hitCount content p.2
      if venue_score = 0 then acc else upsertAdd acc p.1 venue_score)
    (countryKeywordScores content)

/-- The decision cascade `TextPreprocessor.categorize_country`
(text_preprocessing.py lines 44-133), over the executable statements of the
function. The Python early-return ladder is rendered as nested
if-then-else. -/
def categorize_country (text : String) (hashtags : List String) : String :=
  let hashtags_lower := hashtags.map lower
  let all_content := allContent text hashtags
  let country_hashtag_scores := countryHashtagScores hashtags_lower
  if country_hashtag_scores ≠ [] then
    let shared_count := sharedCount hashtags_lower
    let country_specific_count := maxVal country_hashtag_scores
    if shared_count > 0 ∧ country_specific_count = shared_count then
      let country_keyword_scores := countryKeywordScores all_content
      if country_keyword_scores ≠ [] then maxKeyByValue country_keyword_scores
      else "Pamoja"
    else maxKeyByValue country_hashtag_scores
  else
    let country_scores := countryScores all_content
    if country_scores ≠ [] then maxKeyByValue country_scores
    else
      let has_chan_content := chan_indicators.any (fun ind => strIn ind all_content)
      let has_shared_hashtag := SHARED_HASHTAGS.any (fun sh => strIn sh all_content)
      if has_chan_content || has_shared_hashtag then "CHAN-General" else "General"

/-- The guard of the shared-hashtag tie-break (text_preprocessing.py
line 67): the stage-1 score dict is nonempty, there are shared hashtags, and
the winning hashtag score equals the shared-hashtag count. -/
def sharedTieFires (text : String) (hashtags : List String) : Bool :=
  let _ := text
  let hashtags_lower := hashtags.map lower
  let country_hashtag_scores := countryHashtagScores hashtags_lower
  decide (country_hashtag_scores ≠ [] ∧ 0 < sharedCount hashtags_lower ∧
    maxVal country_hashtag_scores = sharedCount hashtags_lower)


/-! ### Key-membership lemmas: every score dict only holds country names -/

theorem maxKeyAux_mem (l : List (String × Nat)) (k : String) (v : Nat) :
    maxKeyAux k v l = k ∨ maxKeyAux k v l ∈ l.map Prod.fst := by
  induction l generalizing k v with
  | nil => left; rfl
  | cons p rest ih =>
    obtain ⟨k2, v2⟩ := p
    simp only [maxKeyAux, List.map_cons, List.mem_cons]
    split
    · rcases ih k2 v2 with h | h
      · right; left; exact h
      · right; right; exact h
    · rcases ih k v with h | h
      · left; exact h
      · right; right; exact h

theorem maxKeyByValue_mem (l : List (String × Nat)) (hne : l ≠ []) :
    maxKeyByValue l ∈ l.map Prod.fst := by
  match l, hne with
  | (k, v) :: rest, _ =>
    simp only [maxKeyByValue, List.map_cons, List.mem_cons]
    rcases maxKeyAux_mem rest k v with h | h
    · left; exact h
    · right; exact h

theorem scoreTable_keys (tbl : List (String × List String)) (f : List String → Nat) :
    ∀ x ∈ (scoreTable tbl f).map Prod.fst, x ∈ tbl.map Prod.fst := by
  intro x hx
  rw [List.mem_map] at hx
  obtain ⟨q, hq, rfl⟩ := hx
  rw [scoreTable, List.mem_filterMap] at hq
  obtain ⟨a, ha, hga⟩ := hq
  by_cases hz : f a.2 = 0
  · rw [if_pos hz] at hga; exact absurd hga (by simp)
  · rw [if_neg hz] at hga
    obtain rfl : (a.1, f a.2) = q := by injection hga
    exact List.mem_map.mpr ⟨a, ha, rfl⟩

theorem upsertAdd_keys (l : List (String × Nat)) (c : String) (s : Nat) :
    ∀ x ∈ (upsertAdd l c s).map Prod.fst, x ∈ l.map Prod.fst ∨ x = c := by
  induction l with
  | nil => simp [upsertAdd]
  | cons p rest ih =>
    obtain ⟨k, v⟩ := p
    intro x hx
    simp only [upsertAdd] at hx
    split at hx
    · simp only [List.map_cons, List.mem_cons] at hx ⊢
      tauto
    · simp only [List.map_cons, List.mem_cons] at hx ⊢
      rcases hx with h | h
      · tauto
      · rcases ih x h with h2 | h2
        · tauto
        · tauto

theorem venueFold_keys (S : List String) (tbl : List (String × List String))
    (content : String) (acc : List (String × Nat))
    (hacc : ∀ x ∈ acc.map Prod.fst, x ∈ S) (htbl : ∀ p ∈ tbl, p.1 ∈ S) :
    ∀ x ∈ ((tbl.foldl
      (fun acc p =>
        let venue_score := 2 * hitCount content p.2
        if venue_score = 0 then acc else upsertAdd acc p.1 venue_score)
      acc).map Prod.fst), x ∈ S := by
  induction tbl generalizing acc with
  | nil => simpa using hacc
  | cons p rest ih =>
    obtain ⟨c, vs⟩ := p
    simp only [List.foldl_cons]
    refine ih _ ?_ (fun q hq => htbl q (List.mem_cons_of_mem _ hq))
    intro x hx
    by_cases hz : 2 * hitCount content vs = 0
    · simp only [hz, if_pos rfl] at hx
      exact hacc x hx
    · simp only [if_neg hz] at hx
      rcases upsertAdd_keys acc c _ x hx with h | h
      · exact hacc x h
      · exact h ▸ htbl (c, vs) (List.mem_cons_self _ _)

theorem countryScores_keys (content : String) :
    ∀ x ∈ (countryScores content).map Prod.fst, x ∈ ["Kenya", "Uganda", "Tanzania"] := by
  have hkw : ∀ x ∈ (countryKeywordScores content).map Prod.fst,
      x ∈ ["Kenya", "Uganda", "Tanzania"] := by
    intro x hx
    have := scoreTable_keys COUNTRY_KEYWORDS (hitCount content) x hx
    simpa [COUNTRY_KEYWORDS] using this
  have htbl : ∀ p ∈ VENUE_KEYWORDS, p.1 ∈ ["Kenya", "Uganda", "Tanzania"] := by
    intro p hp
    simp only [VENUE_KEYWORDS, List.mem_cons, List.not_mem_nil, or_false] at hp
    rcases hp with h | h | h <;> simp [h]
  exact venueFold_keys _ VENUE_KEYWORDS content _ hkw htbl

theorem countryHashtagScores_keys (hl : List String) :
    ∀ x ∈ (countryHashtagScores hl).map Prod.fst, x ∈ ["Kenya", "Uganda", "Tanzania"] := by
  intro x hx
  have := scoreTable_keys COUNTRY_HASHTAGS _ x hx
  simpa [COUNTRY_HASHTAGS] using this

theorem countryKeywordScores_keys (content : String) :
    ∀ x ∈ (countryKeywordScores content).map Prod.fst, x ∈ ["Kenya", "Uganda", "Tanzania"] := by
  intro x hx
  have := scoreTable_keys COUNTRY_KEYWORDS _ x hx
  simpa [COUNTRY_KEYWORDS] using this

theorem mem_countries_mem_labels {x : String} (hx : x ∈ ["Kenya", "Uganda", "Tanzania"]) :
    x ∈ ["Kenya", "Uganda", "Tanzania", "Pamoja", "CHAN-General", "General"] := by
  simp only [List.mem_cons, List.not_mem_nil, or_false] at hx ⊢
  tauto

/-- C1: the claim says `categorize_country` terminates normally on every
input, returning one of the six labels, and never raises. The code as
shipped violates this: the README prose pasted into the function body
(text_preprocessing.py lines 89-116) is a syntax error, so the real module
fails at import and every call — e.g. `categorize_country("", [])` — raises
before the cascade can run. The claim is the evident intent (spec section
4.1: pure and total) and the pasted prose a slip; this theorem shows the
intended property does hold of the function's executable statements: the
embedded cascade is total and its result is always among the six labels. -/
theorem categorize_country_total (t : String) (h : List String) :
    categorize_country t h ∈ ["Kenya", "Uganda", "Tanzania", "Pamoja", "CHAN-General", "General"] := by
  simp only [categorize_country]
  by_cases h1 : countryHashtagScores (h.map lower) ≠ []
  · rw [if_pos h1]
    split
    · by_cases h2 : countryKeywordScores (allContent t h) ≠ []
      · rw [if_pos h2]
        exact mem_countries_mem_labels
          (countryKeywordScores_keys _ _ (maxKeyByValue_mem _ h2))
      · rw [if_neg h2]
        simp
    · exact mem_countries_mem_labels
        (countryHashtagScores_keys _ _ (maxKeyByValue_mem _ h1))
  · rw [if_neg h1]
    by_cases h3 : countryScores (allContent t h) ≠ []
    · rw [if_pos h3]
      exact mem_countries_mem_labels
        (countryScores_keys _ _ (maxKeyByValue_mem _ h3))
    · rw [if_neg h3]
      split <;> simp

theorem contains_eq_false {l : List String} {a : String} (h : a ∉ l) :
    l.contains a = false := by
  simp [List.elem_eq_mem, h]

theorem contains_eq_true {l : List String} {a : String} (h : a ∈ l) :
    l.contains a = true := by
  simp [List.elem_eq_mem, h]

/-- If stage 1 produces the singleton score dict `[(C, n)]` and there are no
shared hashtags, the cascade returns `C` irrespective of the text. -/
theorem stage1_single (t : String) (h : List String) (C : String) (n : Nat)
    (hch : countryHashtagScores (h.map lower) = [(C, n)])
    (hsh : sharedCount (h.map lower) = 0) :
    categorize_country t h = C := by
  simp only [categorize_country, hch, hsh]
  simp [maxKeyByValue, maxKeyAux]

/-- C2: a hashtag list that holds a country-specific hashtag of exactly one
country `C` (in `C`'s COUNTRY_HASHTAGS entry but not shared), no shared
hashtag and no hashtag of any other country makes `categorize_country`
return `C`, whatever the text. Hashtags are assumed lowercase, as the
collaborator contract (`extract_hashtags` lowercases) guarantees. -/
theorem categorize_country_specific_hashtag (t : String) (h : List String)
    (C : String) (ctags : List String)
    (hC : (C, ctags) ∈ COUNTRY_HASHTAGS)
    (hlow : ∀ x ∈ h, lower x = x)
    (hspec : ∃ tag ∈ h, tag ∈ ctags ∧ tag ∉ SHARED_HASHTAGS)
    (hnoshared : ∀ tag ∈ h, tag ∉ SHARED_HASHTAGS)
    (hnoother : ∀ C' ctags', (C', ctags') ∈ COUNTRY_HASHTAGS → C' ≠ C →
      ∀ tag ∈ h, tag ∉ ctags') :
    categorize_country t h = C := by
  have hmap : h.map lower = h := by
    have : h.map lower = h.map id := List.map_congr_left (fun a ha => hlow a ha)
    rw [this, List.map_id]
  have hnc2024 : "#chan2024" ∉ h := fun hm => hnoshared _ hm (by decide)
  have hnte : "#totalenergieschan2024" ∉ h := fun hm => hnoshared _ hm (by decide)
  have hsh : sharedCount (h.map lower) = 0 := by
    rw [hmap, sharedCount, List.length_eq_zero, List.filter_eq_nil_iff]
    intro a ha
    simp only [Bool.not_eq_true]
    exact contains_eq_false (hnoshared a ha)
  simp only [COUNTRY_HASHTAGS, List.mem_cons, List.not_mem_nil, or_false,
    Prod.mk.injEq] at hC
  rcases hC with ⟨rfl, rfl⟩ | ⟨rfl, rfl⟩ | ⟨rfl, rfl⟩
  · -- C = Kenya
    obtain ⟨tag, htag, htagmem, htagns⟩ := hspec
    have : tag = "#harambeestars" := by
      simp only [List.mem_cons, List.not_mem_nil, or_false] at htagmem
      rcases htagmem with rfl | rfl | rfl
      · exact absurd (by decide) htagns
      · exact absurd (by decide) htagns
      · rfl
    subst this
    have hnug : "#ugandacranes" ∉ h := fun hm =>
      hnoother "Uganda" ["#totalenergieschan2024", "#chan2024", "#ugandacranes"]
        (by simp [COUNTRY_HASHTAGS]) (by decide) "#ugandacranes" hm (by decide)
    have hntz : "#taifastars" ∉ h := fun hm =>
      hnoother "Tanzania" ["#chan2024", "#totalenergieschan2024", "#taifastars"]
        (by simp [COUNTRY_HASHTAGS]) (by decide) "#taifastars" hm (by decide)
    refine stage1_single t h "Kenya" 1 ?_ hsh
    rw [hmap, countryHashtagScores, scoreTable, COUNTRY_HASHTAGS]
    simp [List.filterMap_cons, List.filter_cons, hnc2024, hnte, htag, hnug, hntz]
  · -- C = Uganda
    obtain ⟨tag, htag, htagmem, htagns⟩ := hspec
    have : tag = "#ugandacranes" := by
      simp only [List.mem_cons, List.not_mem_nil, or_false] at htagmem
      rcases htagmem with rfl | rfl | rfl
      · exact absurd (by decide) htagns
      · exact absurd (by decide) htagns
      · rfl
    subst this
    have hnke : "#harambeestars" ∉ h := fun hm =>
      hnoother "Kenya" ["#chan2024", "#totalenergieschan2024", "#harambeestars"]
        (by simp [COUNTRY_HASHTAGS]) (by decide) "#harambeestars" hm (by decide)
    have hntz : "#taifastars" ∉ h := fun hm =>
      hnoother "Tanzania" ["#chan2024", "#totalenergieschan2024", "#taifastars"]
        (by simp [COUNTRY_HASHTAGS]) (by decide) "#taifastars" hm (by decide)
    refine stage1_single t h "Uganda" 1 ?_ hsh
    rw [hmap, countryHashtagScores, scoreTable, COUNTRY_HASHTAGS]
    simp [List.filterMap_cons, List.filter_cons, hnc2024, hnte, htag, hnke, hntz]
  · -- C = Tanzania
    obtain ⟨tag, htag, htagmem, htagns⟩ := hspec
    have : tag = "#taifastars" := by
      simp only [List.mem_cons, List.not_mem_nil, or_false] at htagmem
      rcases htagmem with rfl | rfl | rfl
      · exact absurd (by decide) htagns
      · exact absurd (by decide) htagns
      · rfl
    subst this
    have hnke : "#harambeestars" ∉ h := fun hm =>
      hnoother "Kenya" ["#chan2024", "#totalenergieschan2024", "#harambeestars"]
        (by simp [COUNTRY_HASHTAGS]) (by decide) "#harambeestars" hm (by decide)
    have hnug : "#ugandacranes" ∉ h := fun hm =>
      hnoother "Uganda" ["#totalenergieschan2024", "#chan2024", "#ugandacranes"]
        (by simp [COUNTRY_HASHTAGS]) (by decide) "#ugandacranes" hm (by decide)
    refine stage1_single t h "Tanzania" 1 ?_ hsh
    rw [hmap, countryHashtagScores, scoreTable, COUNTRY_HASHTAGS]
    simp [List.filterMap_cons, List.filter_cons, hnc2024, hnte, htag, hnke, hnug]

/-- C2 witness: the spec's own example, `classify("", ["#ugandacranes"]) = Uganda`,
through the general theorem. -/
theorem categorize_country_specific_hashtag_witness :
    categorize_country "" ["#ugandacranes"] = "Uganda" :=
  categorize_country_specific_hashtag "" ["#ugandacranes"] "Uganda"
    ["#totalenergieschan2024", "#chan2024", "#ugandacranes"]
    (by simp [COUNTRY_HASHTAGS])
    (by intro x hx; simp only [List.mem_singleton] at hx; subst hx; decide)
    ⟨"#ugandacranes", by simp, by simp, by decide⟩
    (by intro tag htag; simp only [List.mem_singleton] at htag; subst htag; decide)
    (by
      intro C' ctags' hmem hne tag htag
      simp only [List.mem_singleton] at htag
      subst htag
      simp only [COUNTRY_HASHTAGS, List.mem_cons, List.not_mem_nil, or_false,
        Prod.mk.injEq] at hmem
      rcases hmem with ⟨rfl, rfl⟩ | ⟨rfl, rfl⟩ | ⟨rfl, rfl⟩
      · decide
      · exact absurd rfl hne
      · decide)

theorem hitCount_eq_zero {content : String} {terms : List String}
    (h : ∀ k ∈ terms, strIn k content = false) : hitCount content terms = 0 := by
  rw [hitCount, List.length_eq_zero, List.filter_eq_nil_iff]
  intro a ha
  simp [h a ha]

theorem scoreTable_eq_nil (tbl : List (String × List String)) (f : List String → Nat)
    (h : ∀ p ∈ tbl, f p.2 = 0) : scoreTable tbl f = [] := by
  rw [scoreTable, List.filterMap_eq_nil_iff]
  intro a ha
  rw [if_pos (h a ha)]

/-- C3 counterexample: on the spec's own input `h = ["#chan2024", "#pamoja"]`
with keyword-free text `""` the cascade returns `Kenya`, not `Pamoja`:
`#pamoja` is in SHARED_HASHTAGS but in no COUNTRY_HASHTAGS entry, so the
winning hashtag score (1) differs from the shared count (2) and the
shared-tie branch never runs. -/
theorem pure_shared_pair_counterexample :
    (COUNTRY_KEYWORDS.all fun p => p.2.all fun k => !strIn k "") = true ∧
    (VENUE_KEYWORDS.all fun p => p.2.all fun k => !strIn k "") = true ∧
    categorize_country "" ["#chan2024", "#pamoja"] = "Kenya" ∧
    categorize_country "" ["#chan2024", "#pamoja"] ≠ "Pamoja" := by decide

/-- C3 (amended): for `h = ["#chan2024"]` — a shared hashtag that is in every
country's COUNTRY_HASHTAGS entry — and any text whose combined content has no
COUNTRY_KEYWORDS keyword (and no VENUE_KEYWORDS term) as a substring, the
pure-shared tie-break fires with winning score 1 = shared count 1, no keyword
breaks the tie, and `Pamoja` is returned. -/
theorem pure_shared_tie_pamoja (t : String)
    (hkw : ∀ p ∈ COUNTRY_KEYWORDS, ∀ k ∈ p.2,
      strIn k (allContent t ["#chan2024"]) = false)
    (_hv : ∀ p ∈ VENUE_KEYWORDS, ∀ k ∈ p.2,
      strIn k (allContent t ["#chan2024"]) = false) :
    categorize_country t ["#chan2024"] = "Pamoja" := by
  have hkwz : countryKeywordScores (allContent t ["#chan2024"]) = [] :=
    scoreTable_eq_nil _ _ (fun p hp => hitCount_eq_zero (hkw p hp))
  have hch : countryHashtagScores (["#chan2024"].map lower) =
      [("Kenya", 1), ("Uganda", 1), ("Tanzania", 1)] := by decide
  have hsc : sharedCount (["#chan2024"].map lower) = 1 := by decide
  simp only [categorize_country, hch, hsc, hkwz]
  simp [maxVal]

/-- C3 witness: the amended theorem at `t = ""`. -/
theorem pure_shared_tie_pamoja_witness :
    categorize_country "" ["#chan2024"] = "Pamoja" :=
  pure_shared_tie_pamoja "" (by decide) (by decide)

/-- C4 counterexample: for `t = "excited for kasarani showdown"` and
`h = ["#chan2024", "#pamoja"]` the shared-hashtag tie-break stage does not
fire at all (the winning hashtag score is 1 while the shared count is 2), so
the verdict cannot be produced by that stage scoring the venue term. -/
theorem kasarani_shared_pair_counterexample :
    sharedTieFires "excited for kasarani showdown" ["#chan2024", "#pamoja"] = false := by
  decide

/-- C4 (amended): on that input the cascade still returns `Kenya`, but by the
country-hashtag stage: the tie-break guard is false and
`max(country_hashtag_scores, key=...)` picks Kenya as the first maximal entry
in table order; the text and its venue term play no part. (The code's
tie-break, had it fired, scores only COUNTRY_KEYWORDS — venue terms are not
consulted there.) -/
theorem kasarani_shared_pair_amended :
    categorize_country "excited for kasarani showdown" ["#chan2024", "#pamoja"] = "Kenya" ∧
    sharedTieFires "excited for kasarani showdown" ["#chan2024", "#pamoja"] = false ∧
    countryHashtagScores (["#chan2024", "#pamoja"].map lower) =
      [("Kenya", 1), ("Uganda", 1), ("Tanzania", 1)] ∧
    maxKeyByValue [(("Kenya" : String), 1), ("Uganda", 1), ("Tanzania", 1)] = "Kenya" := by
  decide

/-- C5: whenever stage 1 finds no country-hashtag evidence and the combined
keyword+venue score dict is empty, the cascade returns `CHAN-General` exactly
when the combined lowercased content contains one of the generic event
indicators or a SHARED_HASHTAGS member as a substring, and `General`
exactly otherwise. -/
theorem general_fallback (t : String) (h : List String)
    (h1 : countryHashtagScores (h.map lower) = [])
    (h2 : countryScores (allContent t h) = []) :
    (categorize_country t h = "CHAN-General" ↔
      (chan_indicators.any (fun ind => strIn ind (allContent t h)) ||
       SHARED_HASHTAGS.any (fun sh => strIn sh (allContent t h))) = true) ∧
    (categorize_country t h = "General" ↔
      (chan_indicators.any (fun ind => strIn ind (allContent t h)) ||
       SHARED_HASHTAGS.any (fun sh => strIn sh (allContent t h))) = false) := by
  simp only [categorize_country, h1, h2]
  cases hb : (chan_indicators.any (fun ind => strIn ind (allContent t h)) ||
      SHARED_HASHTAGS.any (fun sh => strIn sh (allContent t h))) with
  | false => simp [hb]
  | true => simp [hb]

/-- C5 witness: the two spec examples through the theorem —
`classify("caf confirms totalenergies sponsorship", [])` is `CHAN-General`
and `classify("good morning everyone", [])` is `General`. -/
theorem general_fallback_witness :
    categorize_country "caf confirms totalenergies sponsorship" [] = "CHAN-General" ∧
    categorize_country "good morning everyone" [] = "General" :=
  ⟨(general_fallback "caf confirms totalenergies sponsorship" []
      (by decide) (by decide)).1.mpr (by decide),
   (general_fallback "good morning everyone" []
      (by decide) (by decide)).2.mpr (by decide)⟩

theorem toNat_ofNat_valid (n : Nat) (h : n.isValidChar) : (Char.ofNat n).toNat = n := by
  rw [Char.ofNat, dif_pos h]
  rfl

theorem toLower_idem (c : Char) : c.toLower.toLower = c.toLower := by
  unfold Char.toLower
  by_cases h : c.toNat ≥ 65 ∧ c.toNat ≤ 90
  · rw [if_pos h]
    have hval : (Char.ofNat (c.toNat + 32)).toNat = c.toNat + 32 := by
      apply toNat_ofNat_valid
      left
      omega
    rw [if_neg]
    rw [hval]
    omega
  · rw [if_neg h, if_neg h]

theorem lower_idem (s : String) : lower (lower s) = lower s := by
  simp only [lower, List.map_map]
  congr 1
  apply List.map_congr_left
  intro a _
  exact toLower_idem a

/-- C6 counterexample: at the claim's own example list `["#UgandaCranes"]`
the result does not differ from the lowercased list — both classify as
`Uganda`, because line 47 lowercases the hashtag argument. -/
theorem no_renormalize_counterexample :
    categorize_country "" ["#UgandaCranes"] = "Uganda" ∧
    categorize_country "" ["#ugandacranes"] = "Uganda" := by decide

/-- C6 (amended): `categorize_country` DOES re-normalize its hashtag
argument (`hashtags_lower = [h.lower() for h in hashtags]`, line 47), so
non-lowercase hashtags are silently corrected rather than misclassified: the
result on any hashtag list equals the result on the same list lowercased. -/
theorem categorize_country_lower_invariant (t : String) (h : List String) :
    categorize_country t (h.map lower) = categorize_country t h := by
  have hmap : (h.map lower).map lower = h.map lower := by
    rw [List.map_map]
    apply List.map_congr_left
    intro a _
    exact lower_idem a
  simp only [categorize_country, allContent, hmap]

/-- C7: each of the six labels of CategoryVocabulary is returned on at least
one input — no label is dead. -/
theorem all_labels_reachable :
    categorize_country "" ["#harambeestars"] = "Kenya" ∧
    categorize_country "" ["#ugandacranes"] = "Uganda" ∧
    categorize_country "" ["#taifastars"] = "Tanzania" ∧
    categorize_country "" ["#chan2024"] = "Pamoja" ∧
    categorize_country "caf" [] = "CHAN-General" ∧
    categorize_country "good morning" [] = "General" := by decide

/-- The threshold labeling of `CHAN2024SentimentAnalyzer.analyze_sentiment`
(src/main.py lines 56-61), applied to the VADER compound score. The float
score is modelled as a rational; the branch structure is the code's
`if compound >= 0.05 / elif compound <= -0.05 / else`. -/
def sentiment_label (compound : ℚ) : String :=
  if compound ≥ 0.05 then "positive"
  else if compound ≤ -0.05 then "negative"
  else "neutral"

/-- C8: the sentiment label is one of positive/negative/neutral, is
`positive` iff `compound ≥ 0.05`, `negative` iff `compound ≤ -0.05`, and
`neutral` exactly otherwise (the two threshold regions cannot overlap). -/
theorem sentiment_label_thresholds (c : ℚ) :
    sentiment_label c ∈ ["positive", "negative", "neutral"] ∧
    (sentiment_label c = "positive" ↔ c ≥ 0.05) ∧
    (sentiment_label c = "negative" ↔ c ≤ -0.05) ∧
    (sentiment_label c = "neutral" ↔ ¬(c ≥ 0.05) ∧ ¬(c ≤ -0.05)) := by
  unfold sentiment_label
  split_ifs with h1 h2
  · refine ⟨by simp, by simp [h1], ?_, ?_⟩
    · constructor
      · intro hs; exact absurd hs (by decide)
      · intro hc; exfalso; rw [ge_iff_le] at h1; nlinarith [h1, hc]
    · constructor
      · intro hs; exact absurd hs (by decide)
      · intro ⟨ha, _⟩; exact absurd h1 ha
  · refine ⟨by simp, ?_, by simp [h2], ?_⟩
    · constructor
      · intro hs; exact absurd hs (by decide)
      · intro hc; exact absurd hc h1
    · constructor
      · intro hs; exact absurd hs (by decide)
      · intro ⟨_, hb⟩; exact absurd h2 hb
  · refine ⟨by simp, ?_, ?_, by simp [h1, h2]⟩
    · constructor
      · intro hs; exact absurd hs (by decide)
      · intro hc; exact absurd hc h1
    · constructor
      · intro hs; exact absurd hs (by decide)
      · intro hc; exact absurd hc h2

/-- The row shape of the `tweets` table (src/db.py lines 27-42); the derived
`is_shared_content` column is part of the stored record. -/
structure TweetRecord where
  tweet_id : String
  text : String
  author_id : String
  created_at : String
  hashtags : List String
  country : String
  sentiment_score : ℚ
  sentiment_label : String
  retweet_count : Nat
  like_count : Nat
  reply_count : Nat
  is_shared_content : Bool
deriving DecidableEq

/-- The processed-tweet dict assembled in `process_tweet`
(src/main.py lines 87-99) that `insert_tweet` receives. -/
structure ProcessedTweet where
  tweet_id : String
  text : String
  author_id : String
  created_at : String
  hashtags : List String
  country : String
  sentiment_score : ℚ
  sentiment_label : String
  retweet_count : Nat
  like_count : Nat
  reply_count : Nat
deriving DecidableEq

/-- The row built by `insert_tweet` (src/db.py lines 115-131):
is_shared is true iff the country field is Pamoja or CHAN-General. -/
def mkTweetRecord (td : ProcessedTweet) : TweetRecord :=
  { tweet_id := td.tweet_id, text := td.text, author_id := td.author_id,
    created_at := td.created_at, hashtags := td.hashtags, country := td.country,
    sentiment_score := td.sentiment_score, sentiment_label := td.sentiment_label,
    retweet_count := td.retweet_count, like_count := td.like_count,
    reply_count := td.reply_count,
    is_shared_content := ["Pamoja", "CHAN-General"].contains td.country }

/-- Model of `DatabaseManager.insert_tweet` (src/db.py lines 102-140) against a
relational-store model of the `tweets` table: the UNIQUE constraint on
`tweet_id` plus `ON CONFLICT (tweet_id) DO NOTHING` make a duplicate insert
leave the table unchanged without raising, so the happy path returns True
either way. -/
def insert_tweet (db : List TweetRecord) (td : ProcessedTweet) :
    List TweetRecord × Bool :=
  if db.any (fun r => r.tweet_id == td.tweet_id) then (db, true)
  else (db ++ [mkTweetRecord td], true)

/-- C9: inserting a record whose `tweet_id` already exists is a no-op that
still reports success; a fresh `tweet_id` appends the assembled row, whose
`is_shared_content` flag is true exactly when the category label is `Pamoja`
or `CHAN-General`. -/
theorem insert_tweet_spec (db : List TweetRecord) (td : ProcessedTweet) :
    ((∃ r ∈ db, r.tweet_id = td.tweet_id) → insert_tweet db td = (db, true)) ∧
    ((∀ r ∈ db, r.tweet_id ≠ td.tweet_id) →
      insert_tweet db td = (db ++ [mkTweetRecord td], true)) ∧
    ((mkTweetRecord td).is_shared_content = true ↔
      (td.country = "Pamoja" ∨ td.country = "CHAN-General")) := by
  refine ⟨?_, ?_, ?_⟩
  · intro ⟨r, hr, he⟩
    rw [insert_tweet, if_pos]
    exact List.any_eq_true.mpr ⟨r, hr, by simp [he]⟩
  · intro hall
    rw [insert_tweet, if_neg]
    rw [List.any_eq_true]
    rintro ⟨r, hr, he⟩
    exact hall r hr (by simpa using he)
  · simp [mkTweetRecord, List.elem_eq_mem]

/-- C9 witness: a duplicate insert of a shared-content record is a no-op
that reports success, a fresh insert stores the row, and the stored flag is
set for the `Pamoja` record. -/
theorem insert_tweet_spec_witness :
    insert_tweet
      [mkTweetRecord ⟨"123", "pamoja night", "a1", "2024-02-01", ["#pamoja"],
        "Pamoja", 0.5, "positive", 1, 2, 3⟩]
      ⟨"123", "pamoja night", "a1", "2024-02-01", ["#pamoja"],
        "Pamoja", 0.5, "positive", 1, 2, 3⟩ =
      ([mkTweetRecord ⟨"123", "pamoja night", "a1", "2024-02-01", ["#pamoja"],
        "Pamoja", 0.5, "positive", 1, 2, 3⟩], true) ∧
    insert_tweet []
      ⟨"456", "harambee", "a2", "2024-02-02", ["#harambeestars"],
        "Kenya", 0.1, "positive", 0, 0, 0⟩ =
      ([mkTweetRecord ⟨"456", "harambee", "a2", "2024-02-02", ["#harambeestars"],
        "Kenya", 0.1, "positive", 0, 0, 0⟩], true) ∧
    (mkTweetRecord ⟨"123", "pamoja night", "a1", "2024-02-01", ["#pamoja"],
        "Pamoja", 0.5, "positive", 1, 2, 3⟩).is_shared_content = true :=
  ⟨(insert_tweet_spec _ _).1 (by simp [mkTweetRecord]),
   (insert_tweet_spec _ _).2.1 (by simp),
   (insert_tweet_spec [] ⟨"123", "pamoja night", "a1", "2024-02-01", ["#pamoja"],
      "Pamoja", 0.5, "positive", 1, 2, 3⟩).2.2.mpr (Or.inl rfl)⟩

/-- C10 counterexample: in the combined keyword+venue stage the insertion
order is NOT the config declaration order. For `t = "thecranes kasarani"`,
`h = []`, Uganda scores 2 from keywords and Kenya scores 2 from the venue
term alone; Kenya's entry is appended after Uganda's, so the maximal-score
tie resolves to `Uganda`, not to first-declared Kenya as the claim predicts
for all three places. -/
theorem tie_order_counterexample :
    countryScores (allContent "thecranes kasarani" []) =
      [("Uganda", 2), ("Kenya", 2)] ∧
    categorize_country "thecranes kasarani" [] = "Uganda" ∧
    categorize_country "thecranes kasarani" [] ≠ "Kenya" := by decide

/-- C10 (amended): ties resolve deterministically to the first key in each
score dict's insertion order. In the country-hashtag stage and the
shared-tie keyword tie-break that order is the config declaration order
Kenya, Uganda, Tanzania (first two conjunct pairs). In the combined
keyword+venue stage, countries with keyword evidence enter first (in config
order) and venue-only countries are appended after them, so a venue-only
country loses a tie to a keyword-scoring country even when its table entry
was declared first (last conjunct pair). -/
theorem tie_order_amended :
    countryHashtagScores (["#harambeestars", "#ugandacranes"].map lower) =
      [("Kenya", 1), ("Uganda", 1)] ∧
    categorize_country "" ["#harambeestars", "#ugandacranes"] = "Kenya" ∧
    countryKeywordScores (allContent "kenya uganda" ["#chan2024"]) =
      [("Kenya", 2), ("Uganda", 2)] ∧
    categorize_country "kenya uganda" ["#chan2024"] = "Kenya" ∧
    countryScores (allContent "thecranes kasarani" []) =
      [("Uganda", 2), ("Kenya", 2)] ∧
    categorize_country "thecranes kasarani" [] = "Uganda" := by decide
